import Mathlib

/-!
Shallow embedding of the keyframe-selection engine of
`CourseProcessor/CourseParser/LessonParser.py` (class `LessonAnalyzer`),
together with theorems checking the natural-language specification
against it.

Times, scores and vector entries are modelled as exact rationals
(Python floats), with cosine similarity landing in `ℝ` because of the
square root in `np.linalg.norm`.  External collaborators (download,
decode, captioning, embedding, storage upload) are parameters of the
embedding, mirroring the call sites in the source.
-/

namespace EduRag

/-- Transcript segment as produced by the transcription collaborator:
a dict `{start, end, text}`.  The source key `end` is a Lean keyword and
is rendered `stop`. -/
structure Segment where
  start : ℚ
  stop : ℚ
  text : String
deriving DecidableEq

/-- A 15-second aggregation block as built by
`LessonAnalyzer._group_segments_by_15s`: a dict
`{start, end, center, text}`. -/
structure Block where
  start : ℚ
  stop : ℚ
  center : ℚ
  text : String
deriving DecidableEq

/-- Python `str.strip()`: remove leading and trailing whitespace.
Implemented by structural recursion over the character list so that
concrete instances reduce inside the kernel. -/
def strTrim (s : String) : String :=
  ⟨((s.data.dropWhile Char.isWhitespace).reverse.dropWhile Char.isWhitespace).reverse⟩

/-- Body of one iteration of the loop in `_group_segments_by_15s`:
for index `i`, collect the texts of all segments whose `start` lies in
`[i*15, (i+1)*15)`, join them with spaces and strip; emit a block only
when the resulting text is non-empty. -/
def blockOfIndex (segments : List Segment) (i : ℕ) : Option Block :=
  let start_t : ℚ := i * 15
  let end_t : ℚ := (i + 1) * 15
  let block_text :=
    (segments.filter fun seg => decide (start_t ≤ seg.start ∧ seg.start < end_t)).map
      Segment.text
  let full_text := strTrim (String.intercalate " " block_text)
  if full_text = "" then none
  else some { start := start_t, stop := end_t, center := start_t + 7.5, text := full_text }

/-- Last element of a non-empty list, as Python `segments[-1]`. -/
def lastSegment (s : Segment) : List Segment → Segment
  | [] => s
  | t :: rest => lastSegment t rest

/-- Embedding of `LessonAnalyzer._group_segments_by_15s`: an empty
segment list yields `[]`; otherwise `duration` is the `end` of the last
segment, the number of blocks is `ceil(duration / 15)`, and the blocks
with non-empty text are emitted in index order. -/
def group_segments_by_15s : List Segment → List Block
  | [] => []
  | s :: rest =>
      let duration := (lastSegment s rest).stop
      let num_blocks := (⌈duration / 15⌉).toNat
      (List.range num_blocks).filterMap (blockOfIndex (s :: rest))

/-- Text that the specification assigns to window `i`: space-joined,
trimmed texts of the segments whose start lies in `[i*15, (i+1)*15)`.
Stated from the spec sentence on window membership (used to compare the
spec reading of window assignment with the code). -/
def spec_window_text (segments : List Segment) (i : ℕ) : String :=
  strTrim (String.intercalate " "
    ((segments.filter fun seg =>
        decide ((i : ℚ) * 15 ≤ seg.start ∧ seg.start < ((i : ℚ) + 1) * 15)).map
      Segment.text))

/-- Claim-side reading of the aggregator (from the spec sentences of C3):
every index `i` whose window text is non-empty contributes a window to
the output, with no restriction of `i` to the grid implied by the last
segment end. -/
def spec_assigns_all_windows (segments : List Segment) : Prop :=
  ∀ i : ℕ, spec_window_text segments i ≠ "" →
    ∃ b ∈ group_segments_by_15s segments,
      b.start = (i : ℚ) * 15 ∧ b.text = spec_window_text segments i

/-- Dot product of two rational vectors, as `np.dot` applied to the two
embedding vectors (the source only ever dots two embeddings of the same
model, hence of equal length). -/
def dotQ : List ℚ → List ℚ → ℚ
  | x :: xs, y :: ys => x * y + dotQ xs ys
  | _, _ => 0

/-- Sum of squares of the entries: the square of `np.linalg.norm`. -/
def normSq (v : List ℚ) : ℚ := dotQ v v

/-- Euclidean norm, as `np.linalg.norm v = sqrt (sum of squares)`. -/
noncomputable def norm2 (v : List ℚ) : ℝ := Real.sqrt ((normSq v : ℚ) : ℝ)

/-- Embedding of `LessonAnalyzer._calculate_similarity`: guards for an
empty input string, an empty embedding vector and a zero norm product,
then unclamped cosine similarity.  `embed` stands for the external
collaborator `Client.get_text_embedding`. -/
noncomputable def calculate_similarity (embed : String → List ℚ)
    (text1 text2 : String) : ℝ :=
  if text1 = "" ∨ text2 = "" then 0
  else
    let vec1 := embed text1
    let vec2 := embed text2
    if vec1 = [] ∨ vec2 = [] then 0
    else
      let dot_product := dotQ vec1 vec2
      let norm_product := norm2 vec1 * norm2 vec2
      if norm_product = 0 then 0
      else (dot_product : ℝ) / norm_product

/-- Texts on which `_calculate_similarity` invokes the embedding
collaborator: none when either input is empty (that guard precedes both
calls in the source), otherwise both inputs in call order. -/
def calculate_similarity_embed_calls (text1 text2 : String) : List String :=
  if text1 = "" ∨ text2 = "" then [] else [text1, text2]

/-- Python `int()` on a float: truncation toward zero. -/
def truncInt (q : ℚ) : ℤ := if 0 ≤ q then ⌊q⌋ else ⌈q⌉

/-- Candidate record appended in `_process_video`:
`{score, path, desc, ts}`. -/
structure Candidate where
  score : ℝ
  path : String
  desc : String
  ts : ℚ

/-- File name of a materialized candidate frame,
`cand_{int(pts*100)}.jpg` (the per-invocation temporary directory
component is the same for every candidate and is elided). -/
def candPath (pts : ℚ) : String :=
  "cand_" ++ toString (truncInt (pts * 100)) ++ ".jpg"

/-- External collaborators and decode-handle state consumed by one
`_process_video` invocation.  `caption` returns `.error` when
`Client.get_image_description` raises (the broad `except` of the body is the
only handler); the remaining collaborators return values as in §6 of
the spec. -/
structure VideoEnv where
  downloadOk : Bool
  openOk : Bool
  fps : ℚ
  frameCount : ℚ
  readOk : ℚ → Bool
  caption : String → Except Unit String
  embed : String → List ℚ
  upload : String → String → Bool

/-- Loop over the capture points of one block (`for pts in
capture_points` in `_process_video`): a point is skipped when it lies
outside `[0, video_duration]`, when the frame read fails, or when the
caption comes back empty; a raised captioning exception aborts the
whole invocation (`.error`).  Candidates keep capture-point order. -/
noncomputable def gatherCandidates (env : VideoEnv) (video_duration : ℚ)
    (block_text : String) : List ℚ → Except Unit (List Candidate)
  | [] => .ok []
  | pts :: rest =>
    if pts < 0 ∨ pts > video_duration then
      gatherCandidates env video_duration block_text rest
    else if env.readOk pts = false then
      gatherCandidates env video_duration block_text rest
    else
      match env.caption (candPath pts) with
      | .error e => .error e
      | .ok desc =>
        if desc = "" then gatherCandidates env video_duration block_text rest
        else
          match gatherCandidates env video_duration block_text rest with
          | .error e => .error e
          | .ok cs =>
            .ok ({ score := calculate_similarity env.embed block_text desc,
                   path := candPath pts, desc := desc, ts := pts } :: cs)

/-- Python `max(candidates, key=lambda x: x["score"])` on a non-empty
list: the running maximum is replaced only on a strictly greater score,
so the first occurrence of the maximal score wins. -/
noncomputable def maxByScore (c : Candidate) : List Candidate → Candidate
  | [] => c
  | d :: rest => maxByScore (if c.score < d.score then d else c) rest

/-- Storage key built by the source as `lesson_name/step_{step_id}/{int(ts)}.jpg`. -/
def s3Key (lesson_name : String) (step_id : ℤ) (ts : ℚ) : String :=
  lesson_name ++ "/step_" ++ toString step_id ++ "/" ++ toString (truncInt ts) ++ ".jpg"

/-- Output record appended to `final_frames_data` for an accepted
window. -/
structure FrameData where
  timestamp : ℚ
  segment_span : ℚ × ℚ
  frame_path : String
  description : String
  context_text : String

/-- Body of the per-block loop of `_process_video`: skip the whole
block when its center exceeds the video duration; otherwise sample the
three capture points, pick the best candidate, apply the strict `0.35`
threshold and attempt the storage upload.  `.ok none` means the window
yields no Keyframe; `.error` propagates a raised exception. -/
noncomputable def processBlock (env : VideoEnv) (video_duration : ℚ)
    (step_id : ℤ) (lesson_name : String) (block : Block) :
    Except Unit (Option FrameData) :=
  if block.center > video_duration then .ok none
  else
    match gatherCandidates env video_duration block.text
        [block.center - 3, block.center, block.center + 3] with
    | .error e => .error e
    | .ok [] => .ok none
    | .ok (c :: cs) =>
      let best := maxByScore c cs
      if best.score > 0.35 then
        let s3_key := s3Key lesson_name step_id best.ts
        if env.upload best.path s3_key then
          .ok (some { timestamp := best.ts,
                      segment_span := (block.start, block.stop),
                      frame_path := s3_key,
                      description := best.desc,
                      context_text := block.text })
        else .ok none
      else .ok none

/-- Iteration of `processBlock` over the block list, collecting the
accepted frames in block order and propagating a raised exception. -/
noncomputable def processBlocks (env : VideoEnv) (video_duration : ℚ)
    (step_id : ℤ) (lesson_name : String) :
    List Block → Except Unit (List FrameData)
  | [] => .ok []
  | b :: bs =>
    match processBlock env video_duration step_id lesson_name b with
    | .error e => .error e
    | .ok none => processBlocks env video_duration step_id lesson_name bs
    | .ok (some fd) =>
      match processBlocks env video_duration step_id lesson_name bs with
      | .error e => .error e
      | .ok fds => .ok (fd :: fds)

/-- Observable resource actions of one `_process_video` invocation. -/
inductive Ev where
  | released
  | removedTempDir
deriving DecidableEq

/-- Embedding of `LessonAnalyzer._process_video`.  The first component
is the returned keyframe list (the only caller-visible value); the
second is the trace of resource actions: `cap.release()` is executed
inside the `try` block just before the successful `return`, while the
`finally` clause removes the temporary directory on every path.  A
download failure or a failed `cap.isOpened()` returns `[]` early; a
raised exception is caught by the broad `except`, which also returns
`[]`. -/
noncomputable def process_video (env : VideoEnv) (segments : List Segment)
    (step_id : ℤ) (lesson_name : String) : List FrameData × List Ev :=
  if env.downloadOk = false then ([], [.removedTempDir])
  else if env.openOk = false then ([], [.removedTempDir])
  else
    let video_duration := if env.fps > 0 then env.frameCount / env.fps else 0
    let time_blocks := group_segments_by_15s segments
    match processBlocks env video_duration step_id lesson_name time_blocks with
    | .error _ => ([], [.removedTempDir])
    | .ok fds => (fds, [.released, .removedTempDir])

/-- Fields of a raw step JSON that `LessonAnalyzer.parse` reads:
`_segments` (default `[]`) and `transcript` (default `""`). -/
structure RawStep where
  segments : List Segment
  transcript : String

/-- Fields of the dict returned by `StepAnalyzer.parse_step_dict` that
drive the control flow of `parse`. -/
structure ParsedStep where
  step_id : ℤ
  video_url : String
  transcript : String

/-- Result dict of `Client.transcribe`. -/
structure TransResult where
  text : String
  segments : List Segment

/-- Persistence actions performed by one `parse` call. -/
inductive ParseEv where
  | calledProcessVideo
  | cachedStepFile
  | wroteContentTxt
  | wroteFramesMetadata
deriving DecidableEq

/-- Collaborators of `LessonAnalyzer.parse`: the sorted step-file list
(`iter_step_files`), `json.load` (`none` models a read error, which
skips the step), `StepAnalyzer.parse_step_dict`, `Client.transcribe`,
and the collaborators of `_process_video`. -/
structure ParseEnv where
  stepFiles : List String
  readStep : String → Option RawStep
  parseStep : RawStep → String → Option ParsedStep
  transcribe : String → ℤ → TransResult
  videoEnv : VideoEnv

/-- Embedding of `LessonAnalyzer._save_frames_metadata`: it returns
without writing when the frame list is empty, and writes
`frames_metadata.json` otherwise. -/
def save_frames_metadata (all_frames : List FrameData) : List ParseEv :=
  if all_frames.isEmpty then [] else [ParseEv.wroteFramesMetadata]

/-- Processing of one step file inside the loop of
`LessonAnalyzer.parse`: read and parse the raw step; when the step has
a video URL and no cached transcript, call the transcription
collaborator and, on non-empty text, cache the result by re-writing the
step file; then the video branch, whose guard in the source is the
literal `if False and parsed.get("video_url") and segments:`.  Returns
the surviving parsed step, the frames metadata gathered for this step,
and the trace of persistence events. -/
noncomputable def parseOneStep (env : ParseEnv) (lesson_name : String)
    (file : String) : Option ParsedStep × List FrameData × List ParseEv :=
  match env.readStep file with
  | none => (none, [], [])
  | some raw =>
    match env.parseStep raw file with
    | none => (none, [], [])
    | some parsed =>
      let segments := raw.segments
      let transcript_text := raw.transcript
      let step2 : ParsedStep × List Segment × List ParseEv :=
        if parsed.video_url ≠ "" ∧ transcript_text = "" then
          let tr := env.transcribe parsed.video_url parsed.step_id
          if tr.text ≠ "" then
            ({ parsed with transcript := tr.text }, tr.segments,
             [ParseEv.cachedStepFile])
          else (parsed, tr.segments, [])
        else (parsed, segments, [])
      if False ∧ step2.1.video_url ≠ "" ∧ step2.2.1 ≠ [] then
        let frames :=
          (process_video env.videoEnv step2.2.1 step2.1.step_id lesson_name).1
        (some step2.1, frames, step2.2.2 ++ [ParseEv.calledProcessVideo])
      else (some step2.1, [], step2.2.2)

/-- Embedding of `LessonAnalyzer.parse`: iterate the step files,
accumulate the parsed steps and the frames metadata, then persist the
lesson content (`content.txt`) and, through `_save_frames_metadata`,
the frames metadata.  The first component is the returned parsed-steps
list; the second is the trace of persistence events in program order. -/
noncomputable def parse (env : ParseEnv) (lesson_name : String) :
    List ParsedStep × List ParseEv :=
  let stepResults := env.stepFiles.map (parseOneStep env lesson_name)
  let parsed_steps := stepResults.filterMap (fun r => r.1)
  let all_frames_metadata := stepResults.flatMap (fun r => r.2.1)
  let evs := stepResults.flatMap (fun r => r.2.2)
  (parsed_steps,
   evs ++ [ParseEv.wroteContentTxt] ++ save_frames_metadata all_frames_metadata)

/-! ## Concrete collaborator environments used in witnesses and
counterexamples -/

/-- All-success environment: download and open succeed, `fps = 1`,
`frameCount = fc`, every frame read succeeds, captioning returns `"d"`,
the embedding collaborator returns `[1]` for every text, and the
storage upload behaves as `up`. -/
def mkEnv (fc : ℚ) (up : String → String → Bool) : VideoEnv :=
  { downloadOk := true, openOk := true, fps := 1, frameCount := fc,
    readOk := fun _ => true, caption := fun _ => .ok "d",
    embed := fun _ => [1], upload := up }

/-- Environment whose captioning collaborator returns the empty string
for every frame (a captioning failure per §6 of the spec); everything
else succeeds. -/
def envEmptyCaption : VideoEnv :=
  { downloadOk := true, openOk := true, fps := 1, frameCount := 100,
    readOk := fun _ => true, caption := fun _ => .ok "",
    embed := fun _ => [], upload := fun _ _ => true }

/-- Environment whose captioning collaborator raises an exception on
every call; everything else succeeds. -/
def envExc : VideoEnv :=
  { downloadOk := true, openOk := true, fps := 1, frameCount := 100,
    readOk := fun _ => true, caption := fun _ => .error (),
    embed := fun _ => [], upload := fun _ _ => true }

/-- Environment whose video download fails. -/
def envFatal : VideoEnv :=
  { downloadOk := false, openOk := true, fps := 1, frameCount := 100,
    readOk := fun _ => true, caption := fun _ => .ok "d",
    embed := fun _ => [1], upload := fun _ _ => true }

/-- Environment whose decode handle fails to open. -/
def envOpenFail : VideoEnv :=
  { downloadOk := true, openOk := false, fps := 1, frameCount := 100,
    readOk := fun _ => true, caption := fun _ => .ok "d",
    embed := fun _ => [1], upload := fun _ _ => true }

/-- Parse environment with a single step file holding a video step that
has no cached transcript; transcription succeeds with text `"hello"`. -/
def envC10 : ParseEnv :=
  { stepFiles := ["step_1.json"],
    readStep := fun _ => some { segments := [], transcript := "" },
    parseStep := fun _ _ => some { step_id := 1, video_url := "u", transcript := "" },
    transcribe := fun _ _ => { text := "hello", segments := [⟨0, 5, "hello"⟩] },
    videoEnv := { downloadOk := false, openOk := false, fps := 0, frameCount := 0,
                  readOk := fun _ => false, caption := fun _ => .ok "",
                  embed := fun _ => [], upload := fun _ _ => false } }

/-! ## Theorems about the temporal aggregator (claim C3) -/

lemma blockOfIndex_eq (segments : List Segment) (i : ℕ) :
    blockOfIndex segments i =
      if spec_window_text segments i = "" then none
      else some { start := (i : ℚ) * 15, stop := ((i : ℚ) + 1) * 15,
                  center := (i : ℚ) * 15 + 7.5,
                  text := spec_window_text segments i } := rfl

/-- C3, counterexample: the spec-side assignment rule, read with no
restriction on the window index, fails on the code for a segment whose
start coincides with the upper grid boundary: for the single segment
`{start 30, end 30, text "x"}` the aggregator enumerates only
`ceil(30/15) = 2` windows, so window `[30,45)` — the window the claim
assigns the segment to — is never produced and the output is empty. -/
theorem group_assignment_claim_false : ¬ spec_assigns_all_windows [⟨30, 30, "x"⟩] := by
  intro h
  have htext : spec_window_text [⟨30, 30, "x"⟩] 2 = "x" := by
    norm_num [spec_window_text, List.filter_cons,
      show strTrim (String.intercalate " " ["x"]) = "x" from rfl]
  have hgroup : group_segments_by_15s [⟨30, 30, "x"⟩] = [] := by
    simp only [group_segments_by_15s, lastSegment]
    rw [show (⌈(30 : ℚ) / 15⌉).toNat = 2 from by
      rw [show ⌈(30 : ℚ) / 15⌉ = 2 from by rw [Int.ceil_eq_iff] ; norm_num]; rfl]
    norm_num [show List.range 2 = [0, 1] from rfl, blockOfIndex,
      List.filterMap_cons, List.filter_cons,
      show strTrim (String.intercalate " " []) = "" from rfl]
  rcases h 2 (by rw [htext]; decide) with ⟨b, hb, _⟩
  rw [hgroup] at hb
  exact absurd hb (List.not_mem_nil b)

/-- C3 (amended): a segment is assigned to window `i` iff
`i*15 ≤ start < (i+1)*15` AND `i < ceil(lastSegment.end/15)` — the
aggregator only enumerates the windows of that grid.  Within it, each
emitted window spans `[i*15, (i+1)*15)` with center `start + 7.5` and
the space-joined trimmed member texts in input order, windows with
empty trimmed text are excluded, empty input yields empty output, and
the end-to-end example produces exactly the three windows with
`[30,45)` absent. -/
theorem group_characterization :
    group_segments_by_15s [] = [] ∧
    (∀ (s : Segment) (rest : List Segment),
      group_segments_by_15s (s :: rest) =
        (List.range (⌈(lastSegment s rest).stop / 15⌉).toNat).filterMap
          (fun i => if spec_window_text (s :: rest) i = "" then none
            else some { start := (i : ℚ) * 15, stop := ((i : ℚ) + 1) * 15,
                        center := (i : ℚ) * 15 + 7.5,
                        text := spec_window_text (s :: rest) i })) ∧
    group_segments_by_15s [⟨0, 5, "intro"⟩, ⟨20, 25, "main point"⟩, ⟨50, 55, "end"⟩] =
      [⟨0, 15, 7.5, "intro"⟩, ⟨15, 30, 22.5, "main point"⟩, ⟨45, 60, 52.5, "end"⟩] := by
  refine ⟨rfl, ?_, ?_⟩
  · intro s rest
    simp only [group_segments_by_15s]
    congr 1
  · simp only [group_segments_by_15s, lastSegment]
    rw [show (⌈(55 : ℚ) / 15⌉).toNat = 4 from by
      rw [show ⌈(55 : ℚ) / 15⌉ = 4 from by rw [Int.ceil_eq_iff] ; norm_num]; rfl]
    norm_num [show List.range 4 = [0, 1, 2, 3] from rfl, blockOfIndex,
      List.filterMap_cons, List.filter_cons,
      show strTrim (String.intercalate " " ["intro"]) = "intro" from rfl,
      show strTrim (String.intercalate " " ["main point"]) = "main point" from rfl,
      show strTrim (String.intercalate " " ["end"]) = "end" from rfl,
      show strTrim (String.intercalate " " []) = "" from rfl]
    rfl

/-! ## Theorems about the similarity scorer (claim C4) -/

/-- C4: `_calculate_similarity` returns `0.0` without invoking the
embedding collaborator when either string is empty; with both strings
non-empty it invokes the collaborator on both, and returns `0.0` when
either returned vector is empty or the product of the two norms is `0`;
otherwise it returns the unclamped cosine similarity
`dot(v1,v2) / (norm(v1) * norm(v2))`. -/
theorem similarity_guards (embed : String → List ℚ) (t1 t2 : String) :
    ((t1 = "" ∨ t2 = "") →
      calculate_similarity embed t1 t2 = 0 ∧
      calculate_similarity_embed_calls t1 t2 = []) ∧
    (t1 ≠ "" → t2 ≠ "" →
      calculate_similarity_embed_calls t1 t2 = [t1, t2]) ∧
    (t1 ≠ "" → t2 ≠ "" → (embed t1 = [] ∨ embed t2 = []) →
      calculate_similarity embed t1 t2 = 0) ∧
    (t1 ≠ "" → t2 ≠ "" → embed t1 ≠ [] → embed t2 ≠ [] →
      norm2 (embed t1) * norm2 (embed t2) = 0 →
      calculate_similarity embed t1 t2 = 0) ∧
    (t1 ≠ "" → t2 ≠ "" → embed t1 ≠ [] → embed t2 ≠ [] →
      norm2 (embed t1) * norm2 (embed t2) ≠ 0 →
      calculate_similarity embed t1 t2 =
        ((dotQ (embed t1) (embed t2) : ℚ) : ℝ) /
          (norm2 (embed t1) * norm2 (embed t2))) := by
  refine ⟨?_, ?_, ?_, ?_, ?_⟩
  · intro h
    rw [calculate_similarity, if_pos h, calculate_similarity_embed_calls, if_pos h]
    exact ⟨rfl, rfl⟩
  · intro h1 h2
    rw [calculate_similarity_embed_calls, if_neg (by simp [h1, h2])]
  · intro h1 h2 h3
    rw [calculate_similarity, if_neg (by simp [h1, h2])]
    simp only
    rw [if_pos h3]
  · intro h1 h2 h3 h4 h5
    rw [calculate_similarity, if_neg (by simp [h1, h2]), if_neg (by simp [h3, h4])]
    simp only
    rw [if_pos h5]
  · intro h1 h2 h3 h4 h5
    rw [calculate_similarity, if_neg (by simp [h1, h2]), if_neg (by simp [h3, h4])]
    simp only
    rw [if_neg h5]

/-- Witness for `similarity_guards` at concrete inputs: an empty first
string yields `0.0` with no embedding call, and an empty embedding
vector yields `0.0`. -/
theorem similarity_guards_witness :
    calculate_similarity (fun _ => ([] : List ℚ)) "" "b" = 0 ∧
    calculate_similarity_embed_calls "" "b" = [] ∧
    calculate_similarity (fun _ => ([] : List ℚ)) "a" "b" = 0 := by
  refine ⟨?_, ?_, ?_⟩
  · exact ((similarity_guards (fun _ => []) "" "b").1 (Or.inl rfl)).1
  · exact ((similarity_guards (fun _ => []) "" "b").1 (Or.inl rfl)).2
  · exact (similarity_guards (fun _ => []) "a" "b").2.2.1 (by decide) (by decide)
      (Or.inl rfl)

/-! ## Helper lemmas about candidate gathering and selection -/

/-- Every candidate returned by the capture-point loop has a non-empty
description, a timestamp equal to one of the capture points, and a
timestamp inside `[0, video_duration]`. -/
lemma gatherCandidates_mem_spec (env : VideoEnv) (d : ℚ) (t : String) :
    ∀ (pts : List ℚ) (l : List Candidate),
      gatherCandidates env d t pts = .ok l →
      ∀ c ∈ l, c.desc ≠ "" ∧ c.ts ∈ pts ∧ 0 ≤ c.ts ∧ c.ts ≤ d := by
  intro pts
  induction pts with
  | nil =>
    intro l hl c hc
    simp only [gatherCandidates] at hl
    cases hl
    exact absurd hc (List.not_mem_nil c)
  | cons p rest ih =>
    intro l hl c hc
    simp only [gatherCandidates] at hl
    split_ifs at hl with h1 h2
    · rcases ih l hl c hc with ⟨hd, hm, hb⟩
      exact ⟨hd, List.mem_cons_of_mem p hm, hb⟩
    · rcases ih l hl c hc with ⟨hd, hm, hb⟩
      exact ⟨hd, List.mem_cons_of_mem p hm, hb⟩
    · cases hcap : env.caption (candPath p) with
      | error e => simp [hcap] at hl
      | ok desc =>
        simp only [hcap] at hl
        by_cases hdesc : desc = ""
        · rw [if_pos hdesc] at hl
          rcases ih l hl c hc with ⟨hd, hm, hb⟩
          exact ⟨hd, List.mem_cons_of_mem p hm, hb⟩
        · rw [if_neg hdesc] at hl
          cases hrest : gatherCandidates env d t rest with
          | error e => simp [hrest] at hl
          | ok cs =>
            simp only [hrest, Except.ok.injEq] at hl
            subst hl
            rcases List.mem_cons.mp hc with hcc | hcc
            · subst hcc
              push_neg at h1
              exact ⟨hdesc, List.mem_cons_self p rest, h1.1, h1.2⟩
            · rcases ih cs hrest c hcc with ⟨hd, hm, hb⟩
              exact ⟨hd, List.mem_cons_of_mem p hm, hb⟩

/-- A capture point outside `[0, video_duration]`, a failed frame read,
or an empty caption leaves the candidate list of the remaining points
unchanged. -/
lemma gatherCandidates_skip (env : VideoEnv) (d : ℚ) (t : String)
    (p : ℚ) (rest : List ℚ) :
    ((p < 0 ∨ p > d) →
      gatherCandidates env d t (p :: rest) = gatherCandidates env d t rest) ∧
    (¬ (p < 0 ∨ p > d) → env.readOk p = false →
      gatherCandidates env d t (p :: rest) = gatherCandidates env d t rest) ∧
    (¬ (p < 0 ∨ p > d) → env.readOk p = true → env.caption (candPath p) = .ok "" →
      gatherCandidates env d t (p :: rest) = gatherCandidates env d t rest) := by
  refine ⟨?_, ?_, ?_⟩
  · intro h
    simp only [gatherCandidates]
    rw [if_pos h]
  · intro h1 h2
    simp only [gatherCandidates]
    rw [if_neg h1, if_pos h2]
  · intro h1 h2 h3
    simp only [gatherCandidates]
    rw [if_neg h1, if_neg (by simp [h2]), h3]
    simp

/-- The running maximum of Python `max` dominates both of its
arguments. -/
lemma score_le_ite (c d : Candidate) :
    c.score ≤ (if c.score < d.score then d else c).score ∧
    d.score ≤ (if c.score < d.score then d else c).score := by
  split_ifs with h
  · exact ⟨le_of_lt h, le_refl _⟩
  · exact ⟨le_refl _, le_of_not_lt h⟩

/-- The selected candidate is a member of the candidate list. -/
lemma maxByScore_mem (c : Candidate) (cs : List Candidate) :
    maxByScore c cs ∈ c :: cs := by
  induction cs generalizing c with
  | nil => simp [maxByScore]
  | cons d rest ih =>
    simp only [maxByScore]
    rcases List.mem_cons.mp (ih (if c.score < d.score then d else c)) with h | h
    · rw [h]
      split_ifs
      · exact List.mem_cons_of_mem c (List.mem_cons_self d rest)
      · exact List.mem_cons_self c (d :: rest)
    · exact List.mem_cons_of_mem c (List.mem_cons_of_mem d h)

/-- The selected candidate has the maximum score of the list. -/
lemma maxByScore_le (c : Candidate) (cs : List Candidate) :
    ∀ d ∈ c :: cs, d.score ≤ (maxByScore c cs).score := by
  induction cs generalizing c with
  | nil =>
    intro d hd
    rcases List.mem_cons.mp hd with h | h
    · rw [h]; simp [maxByScore]
    · exact absurd h (List.not_mem_nil d)
  | cons d rest ih =>
    intro e he
    simp only [maxByScore]
    have hle := ih (if c.score < d.score then d else c)
    have hc' : (if c.score < d.score then d else c).score ≤
        (maxByScore (if c.score < d.score then d else c) rest).score :=
      hle _ (List.mem_cons_self _ rest)
    rcases List.mem_cons.mp he with h | h
    · rw [h]
      exact le_trans (score_le_ite c d).1 hc'
    · rcases List.mem_cons.mp h with h2 | h2
      · rw [h2]
        exact le_trans (score_le_ite c d).2 hc'
      · exact hle e (List.mem_cons_of_mem _ h2)

/-- The selected candidate is the first occurrence of the maximal
score: the list splits around it and every earlier candidate has a
strictly smaller score. -/
lemma maxByScore_first (c : Candidate) (cs : List Candidate) :
    ∃ l1 l2, c :: cs = l1 ++ maxByScore c cs :: l2 ∧
      ∀ d ∈ l1, d.score < (maxByScore c cs).score := by
  induction cs generalizing c with
  | nil => exact ⟨[], [], rfl, by simp⟩
  | cons d rest ih =>
    simp only [maxByScore]
    rcases ih (if c.score < d.score then d else c) with ⟨l1, l2, heq, hlt⟩
    cases l1 with
    | nil =>
      simp only [List.nil_append] at heq
      have hM : maxByScore (if c.score < d.score then d else c) rest =
          (if c.score < d.score then d else c) := (List.cons.injEq _ _ _ _ ▸ heq).1.symm
      have hl2 : rest = l2 := (List.cons.injEq _ _ _ _ ▸ heq).2
      by_cases h : c.score < d.score
      · refine ⟨[c], l2, ?_, ?_⟩
        · rw [hM, if_pos h]
          simp only [List.cons_append, List.nil_append]
          rw [hl2]
        · intro e he
          rcases List.mem_cons.mp he with h2 | h2
          · rw [h2, hM, if_pos h]; exact h
          · exact absurd h2 (List.not_mem_nil e)
      · refine ⟨[], d :: rest, ?_, by simp⟩
        rw [hM, if_neg h]
        rfl
    | cons x l1' =>
      simp only [List.cons_append] at heq
      have hx : (if c.score < d.score then d else c) = x :=
        (List.cons.injEq _ _ _ _ ▸ heq).1
      have hrest : rest = l1' ++ maxByScore (if c.score < d.score then d else c) rest :: l2 :=
        (List.cons.injEq _ _ _ _ ▸ heq).2
      have hxlt : x.score < (maxByScore (if c.score < d.score then d else c) rest).score :=
        hlt x (List.mem_cons_self x l1')
      refine ⟨c :: d :: l1', l2, ?_, ?_⟩
      · simp only [List.cons_append]
        rw [← hrest]
      · intro e he
        rcases List.mem_cons.mp he with h2 | h2
        · rw [h2]
          exact lt_of_le_of_lt (hx ▸ (score_le_ite c d).1) hxlt
        · rcases List.mem_cons.mp h2 with h3 | h3
          · rw [h3]
            exact lt_of_le_of_lt (hx ▸ (score_le_ite c d).2) hxlt
          · exact hlt e (List.mem_cons_of_mem x h3)

/-! ## Theorems about captioning failures (claim C1) -/

/-- C1, counterexample: with a valid capture point (`7.5 ∈ [0,100]`), a
successful frame read and a captioning collaborator that returns the
empty string, the candidate list of the window is empty — the code
drops the capture point instead of producing a candidate with
`description = ""`. -/
theorem caption_failure_drops_candidate :
    gatherCandidates envEmptyCaption 100 "text" [7.5] = .ok [] ∧
    envEmptyCaption.readOk 7.5 = true ∧
    envEmptyCaption.caption (candPath 7.5) = .ok "" := by
  refine ⟨?_, rfl, rfl⟩
  exact ((gatherCandidates_skip envEmptyCaption 100 "text" 7.5 []).2.2
    (by norm_num) rfl rfl).trans rfl

/-- C1 (amended): a capture point whose captioning collaborator returns
the empty string contributes no candidate at all — the point is skipped
and the remaining points are unaffected — and consequently every
candidate in the candidate sequence of a window has a non-empty
description. -/
theorem caption_empty_gives_no_candidate (env : VideoEnv) (d : ℚ) (t : String) :
    (∀ pts l, gatherCandidates env d t pts = .ok l → ∀ c ∈ l, c.desc ≠ "") ∧
    (∀ p rest, ¬ (p < 0 ∨ p > d) → env.readOk p = true →
      env.caption (candPath p) = .ok "" →
      gatherCandidates env d t (p :: rest) = gatherCandidates env d t rest) := by
  refine ⟨?_, ?_⟩
  · intro pts l hl c hc
    exact (gatherCandidates_mem_spec env d t pts l hl c hc).1
  · intro p rest h1 h2 h3
    exact (gatherCandidates_skip env d t p rest).2.2 h1 h2 h3

/-- Witness for `caption_empty_gives_no_candidate` at a concrete
environment and capture point. -/
theorem caption_empty_gives_no_candidate_witness :
    gatherCandidates envEmptyCaption 100 "t" [7.5, 9] =
      gatherCandidates envEmptyCaption 100 "t" [9] ∧
    ∀ c ∈ ([] : List Candidate), c.desc ≠ "" := by
  constructor
  · exact (caption_empty_gives_no_candidate envEmptyCaption 100 "t").2 7.5 [9]
      (by norm_num) rfl rfl
  · exact (caption_empty_gives_no_candidate envEmptyCaption 100 "t").1 [] [] rfl

/-! ## Theorems about best-candidate selection and the threshold
(claim C2) -/

/-- With the stub embedder returning the unit vector `[1]` for every
text, the cosine similarity of two non-empty texts is `1`. -/
lemma calculate_similarity_one (t d : String) (ht : t ≠ "") (hd : d ≠ "") :
    calculate_similarity (fun _ => [(1 : ℚ)]) t d = 1 := by
  have hn : norm2 [(1 : ℚ)] = 1 := by
    rw [norm2, show normSq [(1 : ℚ)] = 1 from by norm_num [normSq, dotQ]]
    norm_num
  rw [calculate_similarity, if_neg (by simp [ht, hd])]
  simp only
  rw [if_neg (by simp), hn]
  norm_num [dotQ]

/-- Evaluation of the capture-point loop in the all-success environment
`mkEnv`: all three points of the block centered at `7.5` produce
candidates with description `"d"` and score `1`, in capture-point
order. -/
lemma gather_mkEnv (fc : ℚ) (up : String → String → Bool) (t : String) (ht : t ≠ "") :
    gatherCandidates (mkEnv fc up) 100 t [7.5 - 3, 7.5, 7.5 + 3] =
      .ok [⟨1, candPath (7.5 - 3), "d", 7.5 - 3⟩,
           ⟨1, candPath 7.5, "d", 7.5⟩,
           ⟨1, candPath (7.5 + 3), "d", 7.5 + 3⟩] := by
  have hsim := calculate_similarity_one t "d" ht (by decide)
  norm_num [gatherCandidates, mkEnv, hsim, (by decide : ¬ ("d" : String) = "")]

/-- C2: for a non-empty candidate sequence the selector chooses the
candidate with the maximum score — on ties the first in capture-point
order — and, with the storage upload of the chosen candidate succeeding (the
upload-failure case is claim C8), the window yields a Keyframe if and
only if the chosen score is strictly greater than `0.35`; a score of
exactly `0.35` is rejected.  The scores `[0.2, 0.9, 0.9]` select the
second candidate. -/
theorem selector_max_first_threshold :
    (∀ (c : Candidate) (cs : List Candidate),
      (∀ d ∈ c :: cs, d.score ≤ (maxByScore c cs).score) ∧
      ∃ l1 l2, c :: cs = l1 ++ maxByScore c cs :: l2 ∧
        ∀ d ∈ l1, d.score < (maxByScore c cs).score) ∧
    (∀ c1 c2 c3 : Candidate, c1.score = 0.2 → c2.score = 0.9 → c3.score = 0.9 →
      maxByScore c1 [c2, c3] = c2) ∧
    (∀ (env : VideoEnv) (video_duration : ℚ) (step_id : ℤ) (lesson_name : String)
      (block : Block) (c : Candidate) (cs : List Candidate),
      ¬ block.center > video_duration →
      gatherCandidates env video_duration block.text
        [block.center - 3, block.center, block.center + 3] = .ok (c :: cs) →
      env.upload (maxByScore c cs).path
        (s3Key lesson_name step_id (maxByScore c cs).ts) = true →
      (((maxByScore c cs).score > 0.35 →
        processBlock env video_duration step_id lesson_name block =
          .ok (some { timestamp := (maxByScore c cs).ts,
                      segment_span := (block.start, block.stop),
                      frame_path := s3Key lesson_name step_id (maxByScore c cs).ts,
                      description := (maxByScore c cs).desc,
                      context_text := block.text })) ∧
       (¬ (maxByScore c cs).score > 0.35 →
        processBlock env video_duration step_id lesson_name block = .ok none) ∧
       ((maxByScore c cs).score = 0.35 →
        processBlock env video_duration step_id lesson_name block = .ok none))) := by
  refine ⟨?_, ?_, ?_⟩
  · intro c cs
    exact ⟨maxByScore_le c cs, maxByScore_first c cs⟩
  · intro c1 c2 c3 h1 h2 h3
    simp only [maxByScore]
    rw [if_pos (show c1.score < c2.score by rw [h1, h2]; norm_num),
      if_neg (show ¬ c2.score < c3.score by rw [h2, h3]; norm_num)]
  · intro env video_duration step_id lesson_name block c cs hc hg hu
    have hblock : ∀ r, processBlock env video_duration step_id lesson_name block = r ↔
        (if (maxByScore c cs).score > 0.35 then
          if env.upload (maxByScore c cs).path
              (s3Key lesson_name step_id (maxByScore c cs).ts) then
            Except.ok (some { timestamp := (maxByScore c cs).ts,
                              segment_span := (block.start, block.stop),
                              frame_path := s3Key lesson_name step_id (maxByScore c cs).ts,
                              description := (maxByScore c cs).desc,
                              context_text := block.text })
          else Except.ok none
        else Except.ok none) = r := by
      intro r
      rw [processBlock, if_neg hc]
      simp only [hg]
    refine ⟨?_, ?_, ?_⟩
    · intro hs
      rw [hblock, if_pos hs, if_pos hu]
    · intro hs
      rw [hblock, if_neg hs]
    · intro hs
      rw [hblock, if_neg (by rw [hs]; norm_num)]

/-- Witness for `selector_max_first_threshold`: in the all-success
environment the block `[0,15)` with center `7.5` yields three
candidates of score `1`; the first is selected and, since `1 > 0.35`
and the upload succeeds, the Keyframe at timestamp `4.5` is emitted. -/
theorem selector_max_first_threshold_witness :
    processBlock (mkEnv 100 (fun _ _ => true)) 100 1 "L" ⟨0, 15, 7.5, "t"⟩ =
      .ok (some { timestamp := 7.5 - 3, segment_span := ((0 : ℚ), (15 : ℚ)),
                  frame_path := s3Key "L" 1 (7.5 - 3), description := "d",
                  context_text := "t" }) := by
  have hg : gatherCandidates (mkEnv 100 (fun _ _ => true)) 100
      (Block.text ⟨0, 15, 7.5, "t"⟩)
      [Block.center ⟨0, 15, 7.5, "t"⟩ - 3, Block.center ⟨0, 15, 7.5, "t"⟩,
       Block.center ⟨0, 15, 7.5, "t"⟩ + 3] =
      .ok [⟨1, candPath (7.5 - 3), "d", 7.5 - 3⟩,
           ⟨1, candPath 7.5, "d", 7.5⟩,
           ⟨1, candPath (7.5 + 3), "d", 7.5 + 3⟩] :=
    gather_mkEnv 100 (fun _ _ => true) "t" (by decide)
  have hbest : maxByScore ⟨1, candPath (7.5 - 3), "d", 7.5 - 3⟩
      [⟨1, candPath 7.5, "d", 7.5⟩, ⟨1, candPath (7.5 + 3), "d", 7.5 + 3⟩] =
      ⟨1, candPath (7.5 - 3), "d", 7.5 - 3⟩ := by
    simp only [maxByScore]
    rw [if_neg (lt_irrefl _), if_neg (lt_irrefl _)]
  have h := (selector_max_first_threshold.2.2 (mkEnv 100 (fun _ _ => true)) 100 1 "L"
    ⟨0, 15, 7.5, "t"⟩ _ _ (by norm_num) hg (by rw [hbest]; rfl)).1
  rw [hbest] at h
  exact h (by norm_num)

/-! ## Theorems about capture points (claim C5) -/

/-- C5, counterexample: with video duration `5`, the single window
`[0,15)` has center `7.5 > 5` and is skipped as a whole by
`if block_center > video_duration: continue`, although the capture
point `center - 3 = 4.5` lies inside `[0, 5]` and every collaborator
would have succeeded with score `1 > 0.35` — so the claimed sampling of
`center - 3.0` does not happen and no Keyframe is produced. -/
theorem window_skipped_when_center_beyond_duration :
    (process_video (mkEnv 5 (fun _ _ => true)) [⟨0, 5, "intro"⟩] 1 "L").1 = [] ∧
    group_segments_by_15s [⟨0, 5, "intro"⟩] = [⟨0, 15, 7.5, "intro"⟩] ∧
    (7.5 : ℚ) > 5 ∧ (0 : ℚ) ≤ 7.5 - 3 ∧ (7.5 : ℚ) - 3 ≤ 5 ∧
    (mkEnv 5 (fun _ _ => true)).readOk (7.5 - 3) = true ∧
    (mkEnv 5 (fun _ _ => true)).caption (candPath (7.5 - 3)) = .ok "d" ∧
    calculate_similarity (mkEnv 5 (fun _ _ => true)).embed "intro" "d" = 1 ∧
    (mkEnv 5 (fun _ _ => true)).upload (candPath (7.5 - 3)) (s3Key "L" 1 (7.5 - 3)) = true := by
  have hgroup : group_segments_by_15s [⟨0, 5, "intro"⟩] = [⟨0, 15, 7.5, "intro"⟩] := by
    simp only [group_segments_by_15s, lastSegment]
    rw [show (⌈(5 : ℚ) / 15⌉).toNat = 1 from by
      rw [show ⌈(5 : ℚ) / 15⌉ = 1 from by rw [Int.ceil_eq_iff] ; norm_num]; rfl]
    norm_num [show List.range 1 = [0] from rfl, blockOfIndex,
      List.filterMap_cons, List.filter_cons,
      show strTrim (String.intercalate " " ["intro"]) = "intro" from rfl]
    rfl
  refine ⟨?_, hgroup, by norm_num, by norm_num, by norm_num, rfl, rfl, ?_, rfl⟩
  · rw [process_video]
    norm_num [mkEnv, hgroup, processBlocks, processBlock]
  · show calculate_similarity (fun _ => [(1 : ℚ)]) "intro" "d" = 1
    exact calculate_similarity_one "intro" "d" (by decide) (by decide)

/-- C5 (amended): a window whose center exceeds the video duration is
skipped as a whole — none of its capture points is sampled; for a
window that is not skipped, each of the three capture points is
considered independently and discarded iff it is `< 0` or
`> videoDuration`; and the timestamp of an emitted Keyframe is always one of
`center - 3`, `center`, `center + 3` and lies within
`[0, videoDuration]`. -/
theorem capture_point_rules :
    (∀ (env : VideoEnv) (video_duration : ℚ) (step_id : ℤ) (lesson_name : String)
      (block : Block), block.center > video_duration →
      processBlock env video_duration step_id lesson_name block = .ok none) ∧
    (∀ (env : VideoEnv) (video_duration : ℚ) (t : String) (p : ℚ) (rest : List ℚ),
      (p < 0 ∨ p > video_duration) →
      gatherCandidates env video_duration t (p :: rest) =
        gatherCandidates env video_duration t rest) ∧
    (∀ (env : VideoEnv) (video_duration : ℚ) (step_id : ℤ) (lesson_name : String)
      (block : Block) (fd : FrameData),
      processBlock env video_duration step_id lesson_name block = .ok (some fd) →
      (fd.timestamp = block.center - 3 ∨ fd.timestamp = block.center ∨
        fd.timestamp = block.center + 3) ∧
      0 ≤ fd.timestamp ∧ fd.timestamp ≤ video_duration) := by
  refine ⟨?_, ?_, ?_⟩
  · intro env video_duration step_id lesson_name block h
    rw [processBlock, if_pos h]
  · intro env video_duration t p rest h
    exact (gatherCandidates_skip env video_duration t p rest).1 h
  · intro env video_duration step_id lesson_name block fd h
    by_cases hc : block.center > video_duration
    · rw [processBlock, if_pos hc] at h
      simp at h
    · rw [processBlock, if_neg hc] at h
      cases hg : gatherCandidates env video_duration block.text
          [block.center - 3, block.center, block.center + 3] with
      | error e => simp [hg] at h
      | ok l =>
        cases l with
        | nil => simp [hg] at h
        | cons c cs =>
          simp only [hg] at h
          split_ifs at h with hs hu
          · simp only [Except.ok.injEq, Option.some.injEq] at h
            subst h
            have hmem := maxByScore_mem c cs
            have hspec := gatherCandidates_mem_spec env video_duration block.text
              [block.center - 3, block.center, block.center + 3] (c :: cs) hg
              (maxByScore c cs) hmem
            refine ⟨?_, hspec.2.2⟩
            have := hspec.2.1
            simpa using this
          · simp at h
          · simp at h

/-- Evaluation of one block in the all-success environment: the first
candidate (score `1`, timestamp `4.5`) wins and its Keyframe is
emitted. -/
lemma processBlock_allOk :
    processBlock (mkEnv 100 (fun _ _ => true)) 100 1 "L" ⟨0, 15, 7.5, "t"⟩ =
      .ok (some { timestamp := 7.5 - 3, segment_span := ((0 : ℚ), (15 : ℚ)),
                  frame_path := s3Key "L" 1 (7.5 - 3), description := "d",
                  context_text := "t" }) := by
  have hg := gather_mkEnv 100 (fun _ _ => true) "t" (by decide)
  have hbest : maxByScore ⟨1, candPath (7.5 - 3), "d", 7.5 - 3⟩
      [⟨1, candPath 7.5, "d", 7.5⟩, ⟨1, candPath (7.5 + 3), "d", 7.5 + 3⟩] =
      ⟨1, candPath (7.5 - 3), "d", 7.5 - 3⟩ := by
    simp only [maxByScore]
    rw [if_neg (lt_irrefl _), if_neg (lt_irrefl _)]
  rw [processBlock, if_neg (show ¬ Block.center ⟨0, 15, 7.5, "t"⟩ > 100 by norm_num)]
  simp only [hg, hbest]
  rw [if_pos (show Candidate.score ⟨1, candPath (7.5 - 3), "d", 7.5 - 3⟩ > 0.35 by
    norm_num)]
  rfl

/-- Witness for `capture_point_rules` at concrete inputs: a window with
center `7.5` and duration `5` is skipped; a negative capture point is
discarded; and the Keyframe emitted in the all-success scenario has
timestamp `4.5 = 7.5 - 3` inside `[0, 100]`. -/
theorem capture_point_rules_witness :
    processBlock envEmptyCaption 5 1 "L" ⟨0, 15, 7.5, "t"⟩ = .ok none ∧
    gatherCandidates envEmptyCaption 100 "t" [-2, 9] =
      gatherCandidates envEmptyCaption 100 "t" [9] ∧
    (((7.5 : ℚ) - 3 = 7.5 - 3 ∨ (7.5 : ℚ) - 3 = 7.5 ∨ (7.5 : ℚ) - 3 = 7.5 + 3) ∧
      (0 : ℚ) ≤ 7.5 - 3 ∧ (7.5 : ℚ) - 3 ≤ 100) := by
  refine ⟨?_, ?_, ?_⟩
  · exact capture_point_rules.1 envEmptyCaption 5 1 "L" ⟨0, 15, 7.5, "t"⟩ (by norm_num)
  · exact capture_point_rules.2.1 envEmptyCaption 100 "t" (-2) [9] (Or.inl (by norm_num))
  · exact capture_point_rules.2.2 (mkEnv 100 (fun _ _ => true)) 100 1 "L"
      ⟨0, 15, 7.5, "t"⟩ _ processBlock_allOk

/-! ## Theorems about the resource lifecycle of `_process_video`
(claims C6, C7, C9) -/

/-- Grouping of the single segment `{0, 5, "intro"}`: one window. -/
lemma group_single_intro :
    group_segments_by_15s [⟨0, 5, "intro"⟩] = [⟨0, 15, 7.5, "intro"⟩] := by
  simp only [group_segments_by_15s, lastSegment]
  rw [show (⌈(5 : ℚ) / 15⌉).toNat = 1 from by
    rw [show ⌈(5 : ℚ) / 15⌉ = 1 from by rw [Int.ceil_eq_iff] ; norm_num]; rfl]
  norm_num [show List.range 1 = [0] from rfl, blockOfIndex,
    List.filterMap_cons, List.filter_cons,
    show strTrim (String.intercalate " " ["intro"]) = "intro" from rfl]
  rfl

/-- C6: the source calls `cap.release()` inside the `try` block, just
before the successful `return`, and not in the `finally` clause.  When
the captioning collaborator raises during window processing, the broad
`except` handler returns `[]` without ever releasing the decode handle,
while the success path releases it exactly once. -/
theorem decode_handle_leaked_on_exception :
    ((process_video envExc [⟨0, 5, "intro"⟩] 1 "L").2.count Ev.released = 0) ∧
    ((process_video envExc [⟨0, 5, "intro"⟩] 1 "L").1 = []) ∧
    ((process_video envEmptyCaption [⟨0, 5, "intro"⟩] 1 "L").2.count Ev.released = 1) := by
  have hexc : process_video envExc [⟨0, 5, "intro"⟩] 1 "L" = ([], [Ev.removedTempDir]) := by
    rw [process_video]
    norm_num [envExc, group_single_intro, processBlocks, processBlock, gatherCandidates]
  have hok : process_video envEmptyCaption [⟨0, 5, "intro"⟩] 1 "L" =
      ([], [Ev.released, Ev.removedTempDir]) := by
    rw [process_video]
    norm_num [envEmptyCaption, group_single_intro, processBlocks, processBlock,
      gatherCandidates]
  rw [hexc, hok]
  exact ⟨rfl, rfl, rfl⟩

/-- C7: on every exit path of `_process_video` — success, download
failure, decode-open failure, or a raised exception — the `finally`
clause removes the per-invocation temporary directory exactly once, and
it is the last action before control returns to the caller. -/
theorem tempdir_removed_on_every_path (env : VideoEnv) (segments : List Segment)
    (step_id : ℤ) (lesson_name : String) :
    (process_video env segments step_id lesson_name).2.count Ev.removedTempDir = 1 ∧
    (process_video env segments step_id lesson_name).2.getLast? =
      some Ev.removedTempDir := by
  rw [process_video]
  by_cases hd : env.downloadOk = false
  · rw [if_pos hd]
    exact ⟨rfl, rfl⟩
  · rw [if_neg hd]
    by_cases ho : env.openOk = false
    · rw [if_pos ho]
      exact ⟨rfl, rfl⟩
    · rw [if_neg ho]
      simp only
      split
      · exact ⟨rfl, rfl⟩
      · exact ⟨rfl, rfl⟩

/-- C9 (amended): a download failure or a decode-open failure aborts
immediately with an empty keyframe list and no partial keyframes; but
the empty list is the only caller-visible signal — a video with no
transcript segments produces the very same value. -/
theorem fatal_failures_return_bare_empty :
    (∀ (env : VideoEnv) (segments : List Segment) (step_id : ℤ) (lesson_name : String),
      env.downloadOk = false →
      process_video env segments step_id lesson_name = ([], [Ev.removedTempDir])) ∧
    (∀ (env : VideoEnv) (segments : List Segment) (step_id : ℤ) (lesson_name : String),
      env.openOk = false →
      (process_video env segments step_id lesson_name).1 = []) ∧
    (∀ (env : VideoEnv) (step_id : ℤ) (lesson_name : String),
      (process_video env [] step_id lesson_name).1 = []) := by
  refine ⟨?_, ?_, ?_⟩
  · intro env segments step_id lesson_name h
    rw [process_video, if_pos h]
  · intro env segments step_id lesson_name h
    rw [process_video]
    by_cases hd : env.downloadOk = false
    · rw [if_pos hd]
    · rw [if_neg hd, if_pos h]
  · intro env step_id lesson_name
    cases hd : env.downloadOk <;> cases ho : env.openOk <;>
      simp [process_video, hd, ho, group_segments_by_15s, processBlocks]

/-- Witness for `fatal_failures_return_bare_empty` at the concrete
failing environments: a download failure, a decode-open failure, and a
no-content video. -/
theorem fatal_failures_return_bare_empty_witness :
    process_video envFatal [⟨0, 5, "intro"⟩] 1 "L" = ([], [Ev.removedTempDir]) ∧
    (process_video envOpenFail [⟨0, 5, "intro"⟩] 1 "L").1 = [] ∧
    (process_video envOpenFail [] 1 "L").1 = [] :=
  ⟨fatal_failures_return_bare_empty.1 envFatal [⟨0, 5, "intro"⟩] 1 "L" rfl,
   fatal_failures_return_bare_empty.2.1 envOpenFail [⟨0, 5, "intro"⟩] 1 "L" rfl,
   fatal_failures_return_bare_empty.2.2 envOpenFail 1 "L"⟩

/-- C9, counterexample to "never indistinguishable": the caller-visible
result of a fatal download failure equals the caller-visible result of
an all-success run on a video with no relevant content — both are the
bare empty list, with no error reason surfaced. -/
theorem fatal_indistinguishable_from_no_content :
    envFatal.downloadOk = false ∧
    (mkEnv 100 (fun _ _ => true)).downloadOk = true ∧
    (mkEnv 100 (fun _ _ => true)).openOk = true ∧
    (process_video envFatal [⟨0, 5, "intro"⟩] 1 "L").1 =
      (process_video (mkEnv 100 (fun _ _ => true)) [] 1 "L").1 := by
  refine ⟨rfl, rfl, rfl, ?_⟩
  rw [process_video, if_pos (show envFatal.downloadOk = false from rfl)]
  simp [process_video, mkEnv, group_segments_by_15s, processBlocks]

/-! ## Theorems about storage-upload failure (claim C8) -/

/-- C8: when the storage upload of the winning candidate — under the
deterministic key built from lesson name, step id and the floored
timestamp — fails, the window yields no Keyframe (in particular the
runner-up is never substituted), and processing continues with the
remaining windows unchanged. -/
theorem upload_failure_drops_window :
    (∀ (env : VideoEnv) (video_duration : ℚ) (step_id : ℤ) (lesson_name : String)
      (block : Block) (c : Candidate) (cs : List Candidate),
      ¬ block.center > video_duration →
      gatherCandidates env video_duration block.text
        [block.center - 3, block.center, block.center + 3] = .ok (c :: cs) →
      env.upload (maxByScore c cs).path
        (s3Key lesson_name step_id (maxByScore c cs).ts) = false →
      processBlock env video_duration step_id lesson_name block = .ok none) ∧
    (∀ (env : VideoEnv) (video_duration : ℚ) (step_id : ℤ) (lesson_name : String)
      (b : Block) (bs : List Block),
      processBlock env video_duration step_id lesson_name b = .ok none →
      processBlocks env video_duration step_id lesson_name (b :: bs) =
        processBlocks env video_duration step_id lesson_name bs) := by
  constructor
  · intro env video_duration step_id lesson_name block c cs hc hg hu
    rw [processBlock, if_neg hc]
    simp only [hg]
    by_cases hs : (maxByScore c cs).score > 0.35
    · rw [if_pos hs, if_neg (by rw [hu]; exact Bool.false_ne_true)]
    · rw [if_neg hs]
  · intro env video_duration step_id lesson_name b bs h
    rw [processBlocks]
    simp only [h]

/-- Witness for `upload_failure_drops_window`: in the all-success
environment whose storage upload always fails, the window centered at
`7.5` has a winning candidate of score `1 > 0.35`, yet it yields no
Keyframe and the block list shrinks to the remaining blocks. -/
theorem upload_failure_drops_window_witness :
    processBlock (mkEnv 100 (fun _ _ => false)) 100 1 "L" ⟨0, 15, 7.5, "t"⟩ = .ok none ∧
    processBlocks (mkEnv 100 (fun _ _ => false)) 100 1 "L" [⟨0, 15, 7.5, "t"⟩] =
      processBlocks (mkEnv 100 (fun _ _ => false)) 100 1 "L" [] := by
  have hg := gather_mkEnv 100 (fun _ _ => false) "t" (by decide)
  have h1 := upload_failure_drops_window.1 (mkEnv 100 (fun _ _ => false)) 100 1 "L"
    ⟨0, 15, 7.5, "t"⟩ _ _ (by norm_num) hg rfl
  exact ⟨h1, upload_failure_drops_window.2 (mkEnv 100 (fun _ _ => false)) 100 1 "L"
    ⟨0, 15, 7.5, "t"⟩ [] h1⟩

/-! ## Theorems about the dead video branch of `parse` (claim C10) -/

/-- For every step file, the per-step frames metadata is empty and the
per-step events are at most one cached step-file write: the video
branch is dead because its guard starts with the literal `False`. -/
lemma parseOneStep_frames_events (env : ParseEnv) (lesson_name file : String) :
    (parseOneStep env lesson_name file).2.1 = [] ∧
    ((parseOneStep env lesson_name file).2.2 = [] ∨
      (parseOneStep env lesson_name file).2.2 = [ParseEv.cachedStepFile]) := by
  cases hr : env.readStep file with
  | none => simp [parseOneStep, hr]
  | some raw =>
    cases hp : env.parseStep raw file with
    | none => simp [parseOneStep, hr, hp]
    | some parsed =>
      simp only [parseOneStep, hr, hp, false_and, if_false]
      split_ifs <;> simp

/-- Accumulated frames metadata over any file list is empty, and the
per-step events contain no video-processing, no content write and no
frames-metadata write. -/
lemma parse_steps_accumulate (env : ParseEnv) (lesson_name : String) :
    ∀ files : List String,
      ((files.map (parseOneStep env lesson_name)).flatMap (fun r => r.2.1) = []) ∧
      (((files.map (parseOneStep env lesson_name)).flatMap (fun r => r.2.2)).count
        ParseEv.calledProcessVideo = 0) ∧
      (((files.map (parseOneStep env lesson_name)).flatMap (fun r => r.2.2)).count
        ParseEv.wroteContentTxt = 0) ∧
      (((files.map (parseOneStep env lesson_name)).flatMap (fun r => r.2.2)).count
        ParseEv.wroteFramesMetadata = 0) := by
  intro files
  induction files with
  | nil => simp
  | cons f fs ih =>
    rcases parseOneStep_frames_events env lesson_name f with ⟨hf, he⟩
    simp only [List.map_cons, List.flatMap_cons, List.count_append, List.append_eq_nil]
    rcases he with he | he <;>
      simp [hf, he, ih.1, ih.2.1, ih.2.2.1, ih.2.2.2]

/-- C10 (amended): the literal always-false guard makes the video
branch dead: `_process_video` is never invoked, the accumulated frames
metadata stays empty, and `_save_frames_metadata` writes nothing;
`content.txt` is written exactly once.  (The transcript-caching branch
may additionally re-write step files; see the counterexample.) -/
theorem video_branch_dead (env : ParseEnv) (lesson_name : String) :
    (parse env lesson_name).2.count ParseEv.calledProcessVideo = 0 ∧
    (parse env lesson_name).2.count ParseEv.wroteFramesMetadata = 0 ∧
    (parse env lesson_name).2.count ParseEv.wroteContentTxt = 1 := by
  rcases parse_steps_accumulate env lesson_name env.stepFiles with ⟨hframes, h1, h2, h3⟩
  rw [parse]
  simp only
  rw [hframes]
  simp [save_frames_metadata, List.count_append, h1, h2, h3]

/-- C10, counterexample to the clause that the only persisted outputs of
`parse` are the lesson content.txt and the returned parsed steps: a video step without
a cached transcript makes `parse` re-write the step JSON file to cache
the transcription result — a persisted output beyond `content.txt`. -/
theorem step_cache_write_in_parse :
    (parse envC10 "L").2 = [ParseEv.cachedStepFile, ParseEv.wroteContentTxt] ∧
    ParseEv.cachedStepFile ∈ (parse envC10 "L").2 ∧
    (parse envC10 "L").1 = [{ step_id := 1, video_url := "u", transcript := "hello" }] := by
  have h : parse envC10 "L" =
      ([{ step_id := 1, video_url := "u", transcript := "hello" }],
       [ParseEv.cachedStepFile, ParseEv.wroteContentTxt]) := by
    rw [parse]
    simp [envC10, parseOneStep, save_frames_metadata,
      (by decide : ¬ ("u" : String) = ""), (by decide : ¬ ("hello" : String) = "")]
  rw [h]
  exact ⟨rfl, by simp, rfl⟩

end EduRag
